import Mathlib

/-!
Verification of the isoAutomate Go SDK core (worker-pool browser
acquisition, Redis-backed RPC transport, session lifecycle).

The repository contains two live client implementations:

* the current `Client` (client.go, transport.go, types.go, and the file
  holding `Client.Acquire` / `Client.Release`, which claims browsers with
  a server-side Lua script), and
* an older monolithic `BrowserClient` (single file: `BrowserClient.Acquire`
  via separate SMembers / SPop / SAdd calls, `BrowserClient.Send` via a
  polling Get loop, `BrowserClient.Release`).

Both are embedded below as pure state-passing functions.  External
effects (Redis call outcomes, generated task IDs, JSON parsing of remote
responses) are supplied as explicit environment parameters, and the store
operations a function performs are returned as an explicit trace, so that
"does not contact the store" and "pushes exactly one task" are statable.
-/

namespace IsoAutomate

/-- A decoded JSON object, as the SDK uses it: a string-keyed map with
string values (the claims only ever inspect string-valued fields such as
`video_url`, `status`, `error`). -/
abbrev Response := List (String × String)

/-- `res["video_url"].(string)`-style lookup on a decoded response. -/
def lookupStr : Response → String → Option String
  | [], _ => none
  | (k2, v) :: rest, k => if k2 = k then some v else lookupStr rest k

/-- Session (types.go): the active browser session bound to a `Client`. -/
structure Session where
  browserID : String
  workerName : String
  browserType : String
  video : Bool
  record : Bool
  profileID : String
  deriving DecidableEq, Repr

/-- The mutable fields of `Client` (client.go) that the core logic reads
and writes.  The Redis handle and context are replaced by explicit
environment parameters at each call site. -/
structure ClientState where
  session : Option Session
  initSent : Bool
  videoURL : String
  recordURL : String
  sessionData : Response
  deriving DecidableEq, Repr

/-- TaskPayload (types.go): the JSON pushed to the worker's task queue.
Fields tagged `omitempty` in Go keep their zero value (`false` / `""`)
exactly when they would be absent from the serialized JSON. -/
structure TaskPayload where
  taskID : String
  browserID : String
  workerName : String
  action : String
  args : List (String × String)
  resultKey : String
  video : Bool
  record : Bool
  profileID : String
  browserType : String
  deriving DecidableEq, Repr

/-- The distinct failures `Client` methods can return.  Each constructor
corresponds to one distinct `NewBrowserError` message (or, for
`pushFailed`, to the raw store error returned straight out of the retry
wrapper around RPush). -/
inductive BrowserErr where
  /-- "Cannot perform action ...: Browser session not acquired." -/
  | notAcquired
  /-- raw error surfaced when the RPush retry budget is exhausted -/
  | pushFailed
  /-- "Timeout waiting for worker response" -/
  | timeoutWaiting
  /-- "Redis RPC Error: ..." -/
  | redisRPC
  /-- "Invalid response from Redis" -/
  | invalidResponse
  /-- "Failed to parse worker response: ..." -/
  | parseFailed
  /-- "Redis Lua Error: ..." — any non-nil error from `Eval(...).Result()`.
  go-redis converts a Lua script's nil reply into the `redis.Nil` error, so
  this is also what an empty or exhausted pool surfaces
  ("Redis Lua Error: redis: nil"). -/
  | redisLua
  /-- "No browsers available for type: ... Check workers." — the
  `result == nil` branch.  Dead code: a nil script reply reaches the Go
  code as the `redis.Nil` error, never as a nil result with a nil error. -/
  | noBrowsersAvailable
  /-- "Invalid Lua response format" -/
  | invalidLuaResponse
  deriving DecidableEq, Repr

/-- Environment of one `SendWithTimeout` call: the generated task ID, the
net outcome of the retried RPush, the net outcome of the retried BLPop,
and the JSON decoder applied to the popped value. -/
inductive PopOutcome where
  /-- BLPop produced `resultRaw` (a key/value list) -/
  | value (raw : List String)
  /-- redis.Nil or context.DeadlineExceeded survived the retry wrapper -/
  | noValue
  /-- some other store error survived the retry wrapper -/
  | connErr
  deriving DecidableEq, Repr

structure SendEnv where
  taskID : String
  pushOk : Bool
  pop : PopOutcome
  unmarshal : String → Option Response

/-- Everything one `SendWithTimeout` call produces: its return value, the
client state afterwards, and the payloads it pushed to the task queue. -/
structure SendOutcome where
  result : Except BrowserErr Response
  state : ClientState
  pushed : List TaskPayload

/-- transport.go, SendWithTimeout steps 2-3: payload construction,
including the session-establishment flags only when `InitSent` is false
(video / record copied from the session; profile ID, and the browser type
together with it, only when the session's profile ID is non-empty). -/
def buildPayload (c : ClientState) (s : Session) (taskID action : String)
    (args : List (String × String)) : TaskPayload :=
  let base : TaskPayload :=
    { taskID := taskID
      browserID := s.browserID
      workerName := s.workerName
      action := action
      args := args
      resultKey := "ISOAUTOMATE:result:" ++ taskID
      video := false
      record := false
      profileID := ""
      browserType := "" }
  if c.initSent then base
  else
    { base with
      video := s.video
      record := s.record
      profileID := s.profileID
      browserType := if s.profileID = "" then "" else s.browserType }

/-- transport.go, `SendWithTimeout`: require a session, build and push the
payload through the retry wrapper, block on the result key through the
retry wrapper, decode, and mark `InitSent` only after a successful
decode.  The state is written only on the success path. -/
def sendWithTimeout (c : ClientState) (action : String)
    (args : List (String × String)) (env : SendEnv) : SendOutcome :=
  match c.session with
  | none => ⟨.error .notAcquired, c, []⟩
  | some s =>
    let payload := buildPayload c s env.taskID action args
    if env.pushOk = false then ⟨.error .pushFailed, c, [payload]⟩
    else
      match env.pop with
      | .noValue => ⟨.error .timeoutWaiting, c, [payload]⟩
      | .connErr => ⟨.error .redisRPC, c, [payload]⟩
      | .value raw =>
        if h2 : raw.length < 2 then ⟨.error .invalidResponse, c, [payload]⟩
        else
          match env.unmarshal (raw.get ⟨1, by omega⟩) with
          | none => ⟨.error .parseFailed, c, [payload]⟩
          | some resp => ⟨.ok resp, { c with initSent := true }, [payload]⟩

/-- Outcome of one invocation of the wrapped store operation, as
`executeWithRetry` (transport.go) distinguishes them: success, the
store's explicit no-value signal (`redis.Nil`), or any other error. -/
inductive OpResult where
  | ok
  | nilErr
  | connErr
  deriving DecidableEq, Repr

/-- transport.go, `executeWithRetry` loop body.  `outcomes i` is the
result of the `(i+1)`-th invocation of `op`; `idx` is the index of the
next invocation and `attempt` the retry counter (`maxAttempts = 3`).
Returns the final result, the total number of invocations performed, and
the list of backoff sleeps (in milliseconds: `0.2s * 2^(attempt-1)` after
incrementing `attempt`). -/
def retryAux (outcomes : Nat → OpResult) (idx attempt : Nat) :
    OpResult × Nat × List Nat :=
  match outcomes idx with
  | .ok => (.ok, idx + 1, [])
  | .nilErr => (.nilErr, idx + 1, [])
  | .connErr =>
    if h : attempt < 3 then
      let r := retryAux outcomes (idx + 1) (attempt + 1)
      (r.1, r.2.1, 200 * 2 ^ attempt :: r.2.2)
    else (.connErr, idx + 1, [])
  termination_by 3 - attempt
  decreasing_by omega

/-- transport.go, `executeWithRetry`: run the loop from a zero retry
counter. -/
def executeWithRetry (outcomes : Nat → OpResult) : OpResult × Nat × List Nat :=
  retryAux outcomes 0 0

/-- Final result of the retry wrapper. -/
def retryResult (outcomes : Nat → OpResult) : OpResult :=
  (executeWithRetry outcomes).1

/-- Number of invocations of the wrapped operation the wrapper performs. -/
def retryCalls (outcomes : Nat → OpResult) : Nat :=
  (executeWithRetry outcomes).2.1

/-- The backoff sleeps (milliseconds) the wrapper performs, in order. -/
def retryDelays (outcomes : Nat → OpResult) : List Nat :=
  (executeWithRetry outcomes).2.2

/-!
## The shared worker-pool store

`Store` models the Redis keys this core touches: the worker-pool set
`ISOAUTOMATE:workers` and, per worker and browser type, the `free` and
`busy` sets of browser-instance IDs.  Sets are modelled as lists; `SPOP`
pops the head, `SADD` inserts when absent.
-/

structure Store where
  workers : List String
  free : String → String → List String
  busy : String → String → List String

/-- Replace one `free` set. -/
def setFree (st : Store) (w bt : String) (l : List String) : Store :=
  { st with free := fun w2 bt2 => if w2 = w ∧ bt2 = bt then l else st.free w2 bt2 }

/-- `SADD busy_key bid` on one `busy` set. -/
def addBusy (st : Store) (w bt bid : String) : Store :=
  { st with
    busy := fun w2 bt2 =>
      if w2 = w ∧ bt2 = bt then
        if bid ∈ st.busy w bt then st.busy w bt else bid :: st.busy w bt
      else st.busy w2 bt2 }

/-- The scan shared by both acquisition routines: walk the (shuffled)
worker list; at each worker, `SPOP` the free set for the requested type
(the head of the list; `errs w = true` models a failed `SPOP`, which
`BrowserClient.Acquire` skips with `continue`); on a hit, `SADD` the
popped ID into the busy set and stop.  For the Lua script of
`Client.Acquire` the whole scan — in particular the pop-then-add pair —
is a single store transition: one application of this function, with
`errs` constantly false since calls inside the script cannot fail. -/
def acquireScan (st : Store) (bt : String) (errs : String → Bool) :
    List String → Option (String × String) × Store
  | [] => (none, st)
  | w :: rest =>
    if errs w then acquireScan st bt errs rest
    else
      match st.free w bt with
      | [] => acquireScan st bt errs rest
      | bid :: tl => (some (w, bid), addBusy (setFree st w bt tl) w bt bid)

/-- The Lua script of `Client.Acquire` applied to one store state, given
the shuffled worker order it iterates (a permutation of
`SMEMBERS ISOAUTOMATE:workers`). -/
def luaAcquire (st : Store) (bt : String) (order : List String) :
    Option (String × String) × Store :=
  acquireScan st bt (fun _ => false) order

/-- A sequence of acquisition callers, each running the atomic Lua script
once with its own shuffled order.  Because the script is one indivisible
store transition, any concurrent execution of the callers is equal to
this sequential composition in some order.  Returns each caller's result
(in order) and the final store. -/
def luaAcquireSeq (st : Store) (bt : String) :
    List (List String) → List (Option (String × String)) × Store
  | [] => ([], st)
  | order :: rest =>
    let s := luaAcquire st bt order
    let r := luaAcquireSeq s.2 bt rest
    (s.1 :: r.1, r.2)

/-- Total number of free instances of type `bt` across the workers `ws`. -/
def totalFree (st : Store) (bt : String) (ws : List String) : Nat :=
  (ws.map fun w => (st.free w bt).length).sum

/-- The store invariant the spec states for the pool (§3): per browser
type, each free set has no duplicates and free sets of distinct workers
are disjoint. -/
def FreeInv (st : Store) (bt : String) : Prop :=
  (∀ w, (st.free w bt).Nodup) ∧
    (∀ w1 w2 x, x ∈ st.free w1 bt → x ∈ st.free w2 bt → w1 = w2)

/-!
## `Client.Acquire` and `Client.Release`

`Client.Acquire` resolves the profile ID (file-system logic abstracted
into the `profileID` parameter), clears `InitSent`, runs the Lua script
(`scriptErr` models a Redis error from `Eval`; `order` is the shuffle the
script produced), and on success installs the `Session` and, when
persistence or capture was requested, performs one warm-up `Send` whose
result is discarded.
-/

/-- `Client.Acquire` up to (and excluding) the warm-up call: the state in
which the new session exists but no command has been sent yet.
`scriptErr` models an `Eval` failure other than the nil reply (store
unreachable, script rejected).  When the script returns nil — pool empty
or every free set exhausted — go-redis hands the Go code the `redis.Nil`
error, so that path also takes the `err != nil` branch and returns the
Redis-Lua error; the source's `result == nil` → "No browsers available"
branch is unreachable. -/
def clientAcquireCore (c : ClientState) (st : Store) (order : List String)
    (scriptErr : Bool) (bt : String) (video record : Bool)
    (profileID : String) :
    Except BrowserErr (String × String) × ClientState × Store :=
  let c1 := { c with initSent := false }
  if scriptErr then (.error .redisLua, c1, st)
  else
    match luaAcquire st bt order with
    | (none, st1) => (.error .redisLua, c1, st1)
    | (some (w, bid), st1) =>
      (.ok (w, bid),
       { c1 with
         session := some
           { browserID := bid, workerName := w, browserType := bt
             video := video, record := record, profileID := profileID } },
       st1)

/-- `Client.Acquire` including the warm-up `Send` ("get_title", result
ignored) issued when a profile, video, or record was requested.  Also
returns the payloads pushed during the call. -/
def clientAcquire (c : ClientState) (st : Store) (order : List String)
    (scriptErr : Bool) (bt : String) (video record : Bool)
    (profileID : String) (warmEnv : SendEnv) :
    Except BrowserErr (String × String) × ClientState × Store ×
      List TaskPayload :=
  match clientAcquireCore c st order scriptErr bt video record profileID with
  | (.error e, c1, st1) => (.error e, c1, st1, [])
  | (.ok r, c2, st1) =>
    if profileID ≠ "" ∨ video = true ∨ record = true then
      let o := sendWithTimeout c2 "get_title" [] warmEnv
      (.ok r, o.state, st1, o.pushed)
    else (.ok r, c2, st1, [])

/-- Environment of one `Client.Release` call: one `SendEnv` per command
it may issue (stop_video, stop_record, release_browser). -/
structure ReleaseEnv where
  videoEnv : SendEnv
  recordEnv : SendEnv
  releaseEnv : SendEnv

/-- `Client.Release`: on a nil session, return the in-band
`{"status": "error", "error": "not_acquired"}` map with a nil Go error
and touch nothing.  Otherwise run the best-effort teardown sends and the
final release_browser send; the deferred `c.Session = nil` clears the
session on every one of those paths.  The first result component models
the Go `(map, error)` pair; the last is the list of payloads pushed. -/
def clientRelease (c : ClientState) (env : ReleaseEnv) :
    (Option Response × Option BrowserErr) × ClientState × List TaskPayload :=
  match c.session with
  | none => ((some [("status", "error"), ("error", "not_acquired")], none), c, [])
  | some s =>
    let step1 :=
      if s.video then
        let o := sendWithTimeout c "stop_video" [] env.videoEnv
        match o.result with
        | .ok res =>
          match lookupStr res "video_url" with
          | some url => ({ o.state with videoURL := url }, o.pushed)
          | none => (o.state, o.pushed)
        | .error _ => (o.state, o.pushed)
      else (c, [])
    let step2 :=
      if s.record then
        let o := sendWithTimeout step1.1 "stop_record" [] env.recordEnv
        match o.result with
        | .ok res =>
          match lookupStr res "record_url" with
          | some url => ({ o.state with recordURL := url }, step1.2 ++ o.pushed)
          | none => (o.state, step1.2 ++ o.pushed)
        | .error _ => (o.state, step1.2 ++ o.pushed)
      else step1
    let o := sendWithTimeout step2.1 "release_browser" [] env.releaseEnv
    match o.result with
    | .error e =>
      ((some [("status", "error"), ("error", "release_failed")], some e),
       { o.state with session := none }, step2.2 ++ o.pushed)
    | .ok res =>
      ((some res, none),
       { o.state with session := none, sessionData := res }, step2.2 ++ o.pushed)

/-!
## The older `BrowserClient`

`BrowserClient.Acquire` reads `SMEMBERS` directly (its failure or an
empty pool is the distinct "no workers found in isoFleet" error), then
scans the shuffled workers with separate `SPop` / `SAdd` calls.
`BrowserClient.Send` checks the session, pushes one `CommandPayload`, and
polls `Get` until timeout.  `BrowserClient.Release` stops an active
recording best-effort, sends release_browser, and clears the session
unconditionally.
-/

/-- The errors `BrowserClient` methods return, one constructor per
distinct message. -/
inductive BCError where
  /-- "no workers found in isoFleet" -/
  | noWorkersFound
  /-- "no available browsers for type: ..." -/
  | noAvailableBrowsers
  /-- "session not acquired" -/
  | sessionNotAcquired
  /-- "no active session" -/
  | noActiveSession
  /-- "timeout waiting for worker response" -/
  | pollTimeout
  /-- a non-nil error from `Get` surfaced to the caller -/
  | getFailed
  /-- a `json.Unmarshal` failure surfaced to the caller -/
  | unmarshalFailed
  deriving DecidableEq, Repr

/-- `Session` as the older file declares it (no video flag, no profile). -/
structure BCSession where
  browserID : String
  workerName : String
  browserType : String
  record : Bool
  deriving DecidableEq, Repr

/-- The mutable fields of `BrowserClient`. -/
structure BCState where
  session : Option BCSession
  videoURL : String
  sessionData : Option Response
  deriving DecidableEq, Repr

/-- Net outcome of the `Get` polling loop of `BrowserClient.Send`. -/
inductive BCPollOutcome where
  /-- some iteration found a value -/
  | value (raw : String)
  /-- every iteration within the window saw redis.Nil -/
  | timedOut
  /-- an iteration failed with a non-nil, non-redis.Nil error -/
  | getErr
  deriving DecidableEq, Repr

structure BCSendEnv where
  taskID : String
  poll : BCPollOutcome
  unmarshal : String → Option Response

/-- `BrowserClient.Send`: session check, one `RPush`, then the polling
loop.  Returns the result, the (unchanged) state, and the actions pushed
to the task queue. -/
def bcSend (c : BCState) (action : String) (_args : List (String × String))
    (env : BCSendEnv) : Except BCError Response × BCState × List String :=
  match c.session with
  | none => (.error .sessionNotAcquired, c, [])
  | some _ =>
    match env.poll with
    | .timedOut => (.error .pollTimeout, c, [action])
    | .getErr => (.error .getFailed, c, [action])
    | .value raw =>
      match env.unmarshal raw with
      | none => (.error .unmarshalFailed, c, [action])
      | some res => (.ok res, c, [action])

/-- `BrowserClient.Acquire`: the `SMEMBERS` guard, then the scan with
separate `SPop`/`SAdd` calls (`errs w` models a failed `SPop`, skipped
with `continue`), then the session install and the optional
start_recording send.  Returns the Go error (if any), the state, the
store, and the actions sent. -/
def bcAcquire (c : BCState) (st : Store) (smembersErr : Bool)
    (order : List String) (bt : String) (record : Bool)
    (errs : String → Bool) (recEnv : BCSendEnv) :
    Option BCError × BCState × Store × List String :=
  if smembersErr = true ∨ st.workers = [] then (some .noWorkersFound, c, st, [])
  else
    match acquireScan st bt errs order with
    | (none, st1) => (some .noAvailableBrowsers, c, st1, [])
    | (some (w, bid), st1) =>
      let c1 : BCState :=
        { c with
          session := some
            { browserID := bid, workerName := w, browserType := bt
              record := record } }
      if record then
        let o := bcSend c1 "start_recording" [] recEnv
        (none, o.2.1, st1, o.2.2)
      else (none, c1, st1, [])

structure BCReleaseEnv where
  recordEnv : BCSendEnv
  releaseEnv : BCSendEnv

/-- `BrowserClient.Release`: nil-session guard, best-effort
stop_recording when the session records, then release_browser;
`SessionData` receives that send's map and `Session` is cleared
unconditionally before returning the send's result. -/
def bcRelease (c : BCState) (env : BCReleaseEnv) :
    Except BCError Response × BCState × List String :=
  match c.session with
  | none => (.error .noActiveSession, c, [])
  | some s =>
    let step1 :=
      if s.record then
        let o := bcSend c "stop_recording" [] env.recordEnv
        match o.1 with
        | .ok res =>
          match lookupStr res "video_url" with
          | some url => ({ o.2.1 with videoURL := url }, o.2.2)
          | none => (o.2.1, o.2.2)
        | .error _ => (o.2.1, o.2.2)
      else (c, [])
    let o := bcSend step1.1 "release_browser" [] env.releaseEnv
    (o.1,
     { o.2.1 with session := none, sessionData := o.1.toOption },
     step1.2 ++ o.2.2)

/-!
## Helper lemmas about the transport
-/

theorem sendWithTimeout_of_none (c : ClientState) (action : String)
    (args : List (String × String)) (env : SendEnv) (h : c.session = none) :
    sendWithTimeout c action args env = ⟨.error .notAcquired, c, []⟩ := by
  simp [sendWithTimeout, h]

theorem bcSend_of_none (c : BCState) (action : String)
    (args : List (String × String)) (env : BCSendEnv) (h : c.session = none) :
    bcSend c action args env = (.error .sessionNotAcquired, c, []) := by
  simp [bcSend, h]

theorem sendWithTimeout_state_cases (c : ClientState) (action : String)
    (args : List (String × String)) (env : SendEnv) :
    (sendWithTimeout c action args env).state = c ∨
      ((sendWithTimeout c action args env).state = { c with initSent := true } ∧
        ∃ r, (sendWithTimeout c action args env).result = .ok r) := by
  unfold sendWithTimeout
  split
  · exact .inl rfl
  · split
    · exact .inl rfl
    · split
      · exact .inl rfl
      · exact .inl rfl
      · split
        · exact .inl rfl
        · split
          · exact .inl rfl
          · exact .inr ⟨rfl, _, rfl⟩

theorem sendWithTimeout_session_eq (c : ClientState) (action : String)
    (args : List (String × String)) (env : SendEnv) :
    (sendWithTimeout c action args env).state.session = c.session := by
  rcases sendWithTimeout_state_cases c action args env with h | ⟨h, _⟩ <;> rw [h]

theorem sendWithTimeout_error_state (c : ClientState) (action : String)
    (args : List (String × String)) (env : SendEnv) (e : BrowserErr)
    (h : (sendWithTimeout c action args env).result = .error e) :
    (sendWithTimeout c action args env).state = c := by
  rcases sendWithTimeout_state_cases c action args env with h2 | ⟨_, r, hr⟩
  · exact h2
  · rw [hr] at h
    exact absurd h (by simp)

theorem sendWithTimeout_ok_initSent (c : ClientState) (action : String)
    (args : List (String × String)) (env : SendEnv) (r : Response)
    (h : (sendWithTimeout c action args env).result = .ok r) :
    (sendWithTimeout c action args env).state.initSent = true := by
  unfold sendWithTimeout at h ⊢
  split at h
  · simp_all
  · split at h
    · simp_all
    · split at h
      · simp_all
      · simp_all
      · split at h
        · simp_all
        · split at h <;> simp_all

theorem sendWithTimeout_pushed (c : ClientState) (s : Session)
    (action : String) (args : List (String × String)) (env : SendEnv)
    (h : c.session = some s) :
    (sendWithTimeout c action args env).pushed =
      [buildPayload c s env.taskID action args] := by
  unfold sendWithTimeout
  split
  · simp_all
  · rename_i s2 hs2
    rw [h] at hs2
    cases hs2
    split
    · rfl
    · split
      · rfl
      · rfl
      · split
        · rfl
        · split <;> rfl

theorem clientRelease_clears (c : ClientState) (s : Session)
    (env : ReleaseEnv) (h : c.session = some s) :
    (clientRelease c env).2.1.session = none := by
  unfold clientRelease
  rw [h]
  dsimp only
  split <;> rfl

theorem bcRelease_clears (c : BCState) (s : BCSession) (env : BCReleaseEnv)
    (h : c.session = some s) : (bcRelease c env).2.1.session = none := by
  unfold bcRelease
  rw [h]

/-!
## Concrete sample states used by the witnesses
-/

def sampleSession : Session :=
  { browserID := "b1", workerName := "w1", browserType := "chrome"
    video := true, record := true, profileID := "p1" }

def sampleClient : ClientState :=
  { session := some sampleSession, initSent := false
    videoURL := "", recordURL := "", sessionData := [] }

def emptyClient : ClientState :=
  { session := none, initSent := false
    videoURL := "", recordURL := "", sessionData := [] }

def sampleEnvOk : SendEnv :=
  { taskID := "t1", pushOk := true, pop := .value ["k", "body"]
    unmarshal := fun _ => some [("status", "ok")] }

def sampleEnvTimeout : SendEnv :=
  { taskID := "t1", pushOk := true, pop := .noValue
    unmarshal := fun _ => none }

def sampleEnvConn : SendEnv :=
  { taskID := "t1", pushOk := true, pop := .connErr
    unmarshal := fun _ => none }

def sampleReleaseEnv : ReleaseEnv :=
  { videoEnv := sampleEnvTimeout, recordEnv := sampleEnvTimeout
    releaseEnv := sampleEnvTimeout }

def sampleBCSession : BCSession :=
  { browserID := "b1", workerName := "w1", browserType := "chrome"
    record := true }

def sampleBC : BCState :=
  { session := some sampleBCSession, videoURL := "", sessionData := none }

def emptyBC : BCState :=
  { session := none, videoURL := "", sessionData := none }

def sampleBCSendEnv : BCSendEnv :=
  { taskID := "t1", poll := .timedOut, unmarshal := fun _ => none }

def sampleStore : Store :=
  { workers := ["w1"]
    free := fun w bt => if w = "w1" ∧ bt = "chrome" then ["bid1"] else []
    busy := fun _ _ => [] }

def sampleBCReleaseEnv : BCReleaseEnv :=
  { recordEnv := sampleBCSendEnv, releaseEnv := sampleBCSendEnv }

/-!
## Claim theorems: transport and lifecycle
-/

/-- C7: for every action and argument map, calling Send when no Session is
live fails immediately with the not-acquired error and nothing is handed
to the task queue (empty push trace, state untouched), in both
`Client.SendWithTimeout` and `BrowserClient.Send`. -/
theorem c7_send_without_session_fails_fast (c : ClientState)
    (action : String) (args : List (String × String)) (env : SendEnv)
    (bc : BCState) (bargs : List (String × String)) (benv : BCSendEnv)
    (hc : c.session = none) (hbc : bc.session = none) :
    sendWithTimeout c action args env = ⟨.error .notAcquired, c, []⟩ ∧
      bcSend bc action bargs benv = (.error .sessionNotAcquired, bc, []) :=
  ⟨sendWithTimeout_of_none c action args env hc,
   bcSend_of_none bc action bargs benv hbc⟩

theorem c7_send_without_session_fails_fast_witness :
    sendWithTimeout emptyClient "click" [] sampleEnvOk =
      ⟨.error .notAcquired, emptyClient, []⟩ ∧
      bcSend emptyBC "click" [] sampleBCSendEnv =
        (.error .sessionNotAcquired, emptyBC, []) :=
  c7_send_without_session_fails_fast emptyClient "click" [] sampleEnvOk
    emptyBC [] sampleBCSendEnv rfl rfl

/-- C8: a Send call never changes the client's Session, and a Send that
fails with any error (timeout, transport, or protocol) leaves the entire
client state unchanged — only Release clears the session. -/
theorem c8_failed_send_leaves_state_unchanged (c : ClientState)
    (action : String) (args : List (String × String)) (env : SendEnv) :
    (sendWithTimeout c action args env).state.session = c.session ∧
      (∀ e, (sendWithTimeout c action args env).result = .error e →
        (sendWithTimeout c action args env).state = c) :=
  ⟨sendWithTimeout_session_eq c action args env,
   fun e h => sendWithTimeout_error_state c action args env e h⟩

theorem c8_failed_send_leaves_state_unchanged_witness :
    (sendWithTimeout sampleClient "click" [] sampleEnvTimeout).state =
      sampleClient :=
  (c8_failed_send_leaves_state_unchanged sampleClient "click" []
    sampleEnvTimeout).2 .timeoutWaiting rfl

/-- C6: a Send whose blocking pop yields no value within the window fails
with the timeout error; a Send whose pop keeps failing with a
connectivity error past the retry budget fails with the RPC transport
error; and the timeout error is distinct from both transport-failure
errors (the RPC error and the raw push failure). -/
theorem c6_timeout_distinct_from_transport (c : ClientState) (s : Session)
    (action : String) (args : List (String × String)) (env env2 : SendEnv)
    (hs : c.session = some s) (hp : env.pushOk = true)
    (hpop : env.pop = .noValue) (hp2 : env2.pushOk = true)
    (hpop2 : env2.pop = .connErr) :
    (sendWithTimeout c action args env).result = .error .timeoutWaiting ∧
      (sendWithTimeout c action args env2).result = .error .redisRPC ∧
      BrowserErr.timeoutWaiting ≠ BrowserErr.redisRPC ∧
      BrowserErr.timeoutWaiting ≠ BrowserErr.pushFailed := by
  refine ⟨?_, ?_, by simp, by simp⟩
  · simp [sendWithTimeout, hs, hp, hpop]
  · simp [sendWithTimeout, hs, hp2, hpop2]

theorem c6_timeout_distinct_from_transport_witness :
    (sendWithTimeout sampleClient "click" [] sampleEnvTimeout).result =
      .error .timeoutWaiting ∧
      (sendWithTimeout sampleClient "click" [] sampleEnvConn).result =
        .error .redisRPC ∧
      BrowserErr.timeoutWaiting ≠ BrowserErr.redisRPC ∧
      BrowserErr.timeoutWaiting ≠ BrowserErr.pushFailed :=
  c6_timeout_distinct_from_transport sampleClient sampleSession "click" []
    sampleEnvTimeout sampleEnvConn rfl rfl rfl rfl rfl

/-- C4: the payload carries the session-establishment flags exactly when
`InitSent` is false: all four (video, record, profile ID, browser type)
are zero — hence absent from the omitempty JSON — when `InitSent` is
true, and are copied from the session when it is false (the browser type
accompanying a non-empty profile ID); the Send pushes exactly that
payload; and `InitSent` becomes true exactly on a successful round trip
(a response popped and parsed), keeping its old value when the call
fails, so a failed first call re-sends the flags on the next call. -/
theorem c4_init_flags_only_first_call (c : ClientState) (s : Session)
    (taskID action : String) (args : List (String × String)) (env : SendEnv) :
    (c.initSent = true →
      (buildPayload c s taskID action args).video = false ∧
        (buildPayload c s taskID action args).record = false ∧
        (buildPayload c s taskID action args).profileID = "" ∧
        (buildPayload c s taskID action args).browserType = "") ∧
      (c.initSent = false →
        (buildPayload c s taskID action args).video = s.video ∧
          (buildPayload c s taskID action args).record = s.record ∧
          (buildPayload c s taskID action args).profileID = s.profileID ∧
          (buildPayload c s taskID action args).browserType =
            (if s.profileID = "" then "" else s.browserType)) ∧
      (c.session = some s →
        (sendWithTimeout c action args env).pushed =
          [buildPayload c s env.taskID action args]) ∧
      (∀ r, (sendWithTimeout c action args env).result = .ok r →
        (sendWithTimeout c action args env).state.initSent = true) ∧
      (∀ e, (sendWithTimeout c action args env).result = .error e →
        (sendWithTimeout c action args env).state.initSent = c.initSent) := by
  refine ⟨fun h => ?_, fun h => ?_, fun h => ?_, fun r h => ?_, fun e h => ?_⟩
  · simp [buildPayload, h]
  · simp [buildPayload, h]
  · exact sendWithTimeout_pushed c s action args env h
  · exact sendWithTimeout_ok_initSent c action args env r h
  · rw [sendWithTimeout_error_state c action args env e h]

theorem c4_init_flags_only_first_call_witness :
    (buildPayload sampleClient sampleSession "t1" "click" []).video = true ∧
      (sendWithTimeout sampleClient "click" [] sampleEnvOk).state.initSent =
        true ∧
      (sendWithTimeout sampleClient "click" [] sampleEnvTimeout).state.initSent
        = false := by
  have h := c4_init_flags_only_first_call sampleClient sampleSession "t1"
    "click" [] sampleEnvOk
  have h2 := c4_init_flags_only_first_call sampleClient sampleSession "t1"
    "click" [] sampleEnvTimeout
  refine ⟨?_, ?_, ?_⟩
  · rw [(h.2.1 rfl).1]; exact rfl
  · exact h.2.2.2.1 [("status", "ok")] rfl
  · exact h2.2.2.2.2 .timeoutWaiting rfl

/-- C9: Release on an Empty session is a no-op: `Client.Release` returns
the in-band map `{"status": "error", "error": "not_acquired"}` with a nil
Go error, `BrowserClient.Release` returns the "no active session" error;
neither sends anything to the store (empty trace) and neither changes any
client state. -/
theorem c9_release_on_empty_session_noop (c : ClientState)
    (env : ReleaseEnv) (bc : BCState) (benv : BCReleaseEnv)
    (hc : c.session = none) (hbc : bc.session = none) :
    clientRelease c env =
        ((some [("status", "error"), ("error", "not_acquired")], none), c, []) ∧
      bcRelease bc benv = (.error .noActiveSession, bc, []) := by
  constructor
  · simp [clientRelease, hc]
  · simp [bcRelease, hbc]

theorem c9_release_on_empty_session_noop_witness :
    clientRelease emptyClient sampleReleaseEnv =
        ((some [("status", "error"), ("error", "not_acquired")], none),
          emptyClient, []) ∧
      bcRelease emptyBC sampleBCReleaseEnv =
        (.error .noActiveSession, emptyBC, []) :=
  c9_release_on_empty_session_noop emptyClient sampleReleaseEnv emptyBC
    sampleBCReleaseEnv rfl rfl

/-- C3: Release on a non-empty session always leaves the Session Empty —
whatever the outcomes of the teardown and release-browser sends — in both
`Client.Release` and `BrowserClient.Release`, and any subsequent Send on
the same client then returns the not-acquired error. -/
theorem c3_release_always_clears_session (c : ClientState) (s : Session)
    (env : ReleaseEnv) (bc : BCState) (bs : BCSession) (benv : BCReleaseEnv)
    (hc : c.session = some s) (hbc : bc.session = some bs) :
    (clientRelease c env).2.1.session = none ∧
      (bcRelease bc benv).2.1.session = none ∧
      (∀ action args senv,
        (sendWithTimeout (clientRelease c env).2.1 action args senv).result =
          .error .notAcquired) ∧
      (∀ action args bsenv,
        (bcSend (bcRelease bc benv).2.1 action args bsenv).1 =
          .error .sessionNotAcquired) := by
  have h1 := clientRelease_clears c s env hc
  have h2 := bcRelease_clears bc bs benv hbc
  refine ⟨h1, h2, fun action args senv => ?_, fun action args bsenv => ?_⟩
  · rw [sendWithTimeout_of_none _ action args senv h1]
  · rw [bcSend_of_none _ action args bsenv h2]

theorem c3_release_always_clears_session_witness :
    (clientRelease sampleClient sampleReleaseEnv).2.1.session = none ∧
      (bcRelease sampleBC sampleBCReleaseEnv).2.1.session = none :=
  ⟨(c3_release_always_clears_session sampleClient sampleSession
      sampleReleaseEnv sampleBC sampleBCSession sampleBCReleaseEnv rfl
      rfl).1,
   (c3_release_always_clears_session sampleClient sampleSession
      sampleReleaseEnv sampleBC sampleBCSession sampleBCReleaseEnv rfl
      rfl).2.1⟩

/-- C10: `Client.Acquire` sets `InitSent` to false before claiming a
browser (on every path, whatever its previous value), so after a
successful claim the new session's first Send pushes a payload carrying
that session's establishment flags (video, record, profile ID, and — with
a non-empty profile — the browser type). -/
theorem c10_acquire_resets_initSent (c : ClientState) (st : Store)
    (order : List String) (scriptErr : Bool) (bt : String)
    (video record : Bool) (profileID : String) :
    (clientAcquireCore c st order scriptErr bt video record
          profileID).2.1.initSent = false ∧
      (∀ w bid,
        (clientAcquireCore c st order scriptErr bt video record
            profileID).1 = .ok (w, bid) →
        (clientAcquireCore c st order scriptErr bt video record
            profileID).2.1.session =
            some ⟨bid, w, bt, video, record, profileID⟩ ∧
          ∀ action args env,
            ((sendWithTimeout
                (clientAcquireCore c st order scriptErr bt video record
                  profileID).2.1 action args env).pushed.map fun p =>
                (p.video, p.record, p.profileID, p.browserType)) =
              [(video, record, profileID,
                if profileID = "" then "" else bt)]) := by
  unfold clientAcquireCore
  split
  · exact ⟨rfl, by intro w bid h; exact absurd h (by simp)⟩
  · split
    · exact ⟨rfl, by intro w bid h; dsimp only at h; exact absurd h (by simp)⟩
    · rename_i w2 bid2 st2 heq
      refine ⟨rfl, ?_⟩
      intro w bid h
      dsimp only at h
      simp only [Except.ok.injEq, Prod.mk.injEq] at h
      obtain ⟨rfl, rfl⟩ := h
      refine ⟨rfl, ?_⟩
      intro action args env
      rw [sendWithTimeout_pushed _
        ⟨bid2, w2, bt, video, record, profileID⟩ action args env rfl]
      simp [buildPayload]

theorem c10_acquire_resets_initSent_witness :
    (clientAcquireCore sampleClient sampleStore ["w1"] false "chrome" true
        true "p1").2.1.initSent = false ∧
      ((sendWithTimeout
          (clientAcquireCore sampleClient sampleStore ["w1"] false "chrome"
            true true "p1").2.1 "get_title" [] sampleEnvOk).pushed.map
          fun p => (p.video, p.record, p.profileID, p.browserType)) =
        [(true, true, "p1", "chrome")] := by
  have h := c10_acquire_resets_initSent sampleClient sampleStore ["w1"]
    false "chrome" true true "p1"
  exact ⟨h.1, ((h.2 "w1" "bid1" rfl).2 "get_title" [] sampleEnvOk)⟩

/-!
## Helper lemmas about the retry wrapper

The loop makes at most four calls, so its behaviour is fixed by the first
four outcomes; one computation lemma per path.
-/

theorem ew_ok0 (o : Nat → OpResult) (h0 : o 0 = .ok) :
    executeWithRetry o = (.ok, 1, []) := by
  simp [executeWithRetry, retryAux, h0]

theorem ew_nil0 (o : Nat → OpResult) (h0 : o 0 = .nilErr) :
    executeWithRetry o = (.nilErr, 1, []) := by
  simp [executeWithRetry, retryAux, h0]

theorem ew_ok1 (o : Nat → OpResult) (h0 : o 0 = .connErr) (h1 : o 1 = .ok) :
    executeWithRetry o = (.ok, 2, [200]) := by
  simp [executeWithRetry, retryAux, h0, h1]

theorem ew_nil1 (o : Nat → OpResult) (h0 : o 0 = .connErr)
    (h1 : o 1 = .nilErr) : executeWithRetry o = (.nilErr, 2, [200]) := by
  simp [executeWithRetry, retryAux, h0, h1]

theorem ew_ok2 (o : Nat → OpResult) (h0 : o 0 = .connErr)
    (h1 : o 1 = .connErr) (h2 : o 2 = .ok) :
    executeWithRetry o = (.ok, 3, [200, 400]) := by
  simp [executeWithRetry, retryAux, h0, h1, h2]

theorem ew_nil2 (o : Nat → OpResult) (h0 : o 0 = .connErr)
    (h1 : o 1 = .connErr) (h2 : o 2 = .nilErr) :
    executeWithRetry o = (.nilErr, 3, [200, 400]) := by
  simp [executeWithRetry, retryAux, h0, h1, h2]

theorem ew_ok3 (o : Nat → OpResult) (h0 : o 0 = .connErr)
    (h1 : o 1 = .connErr) (h2 : o 2 = .connErr) (h3 : o 3 = .ok) :
    executeWithRetry o = (.ok, 4, [200, 400, 800]) := by
  simp [executeWithRetry, retryAux, h0, h1, h2, h3]

theorem ew_nil3 (o : Nat → OpResult) (h0 : o 0 = .connErr)
    (h1 : o 1 = .connErr) (h2 : o 2 = .connErr) (h3 : o 3 = .nilErr) :
    executeWithRetry o = (.nilErr, 4, [200, 400, 800]) := by
  simp [executeWithRetry, retryAux, h0, h1, h2, h3]

theorem ew_conn3 (o : Nat → OpResult) (h0 : o 0 = .connErr)
    (h1 : o 1 = .connErr) (h2 : o 2 = .connErr) (h3 : o 3 = .connErr) :
    executeWithRetry o = (.connErr, 4, [200, 400, 800]) := by
  simp [executeWithRetry, retryAux, h0, h1, h2, h3]

theorem ew_char (o : Nat → OpResult) :
    ∃ n, executeWithRetry o = (o (n - 1), n, [200, 400, 800].take (n - 1)) ∧
      1 ≤ n ∧ n ≤ 4 ∧ (∀ j, j < n - 1 → o j = .connErr) ∧
      (o (n - 1) = .connErr → n = 4) := by
  rcases h0 : o 0 with _ | _ | _
  · exact ⟨1, by simp [ew_ok0 o h0, h0], by omega, by omega,
      fun j hj => absurd hj (by omega), fun hc => by simp [h0] at hc⟩
  · exact ⟨1, by simp [ew_nil0 o h0, h0], by omega, by omega,
      fun j hj => absurd hj (by omega), fun hc => by simp [h0] at hc⟩
  · rcases h1 : o 1 with _ | _ | _
    · refine ⟨2, by simp [ew_ok1 o h0 h1, h1], by omega, by omega, ?_,
        fun hc => by simp [h1] at hc⟩
      intro j hj
      have hj0 : j = 0 := by omega
      subst hj0; exact h0
    · refine ⟨2, by simp [ew_nil1 o h0 h1, h1], by omega, by omega, ?_,
        fun hc => by simp [h1] at hc⟩
      intro j hj
      have hj0 : j = 0 := by omega
      subst hj0; exact h0
    · rcases h2 : o 2 with _ | _ | _
      · refine ⟨3, by simp [ew_ok2 o h0 h1 h2, h2], by omega, by omega, ?_,
          fun hc => by simp [h2] at hc⟩
        intro j hj
        have hj0 : j = 0 ∨ j = 1 := by omega
        rcases hj0 with rfl | rfl
        · exact h0
        · exact h1
      · refine ⟨3, by simp [ew_nil2 o h0 h1 h2, h2], by omega, by omega, ?_,
          fun hc => by simp [h2] at hc⟩
        intro j hj
        have hj0 : j = 0 ∨ j = 1 := by omega
        rcases hj0 with rfl | rfl
        · exact h0
        · exact h1
      · rcases h3 : o 3 with _ | _ | _
        · refine ⟨4, by simp [ew_ok3 o h0 h1 h2 h3, h3], by omega, by omega,
            ?_, fun hc => rfl⟩
          intro j hj
          have hj0 : j = 0 ∨ j = 1 ∨ j = 2 := by omega
          rcases hj0 with rfl | rfl | rfl
          · exact h0
          · exact h1
          · exact h2
        · refine ⟨4, by simp [ew_nil3 o h0 h1 h2 h3, h3], by omega, by omega,
            ?_, fun hc => rfl⟩
          intro j hj
          have hj0 : j = 0 ∨ j = 1 ∨ j = 2 := by omega
          rcases hj0 with rfl | rfl | rfl
          · exact h0
          · exact h1
          · exact h2
        · refine ⟨4, by simp [ew_conn3 o h0 h1 h2 h3, h3], by omega, by omega,
            ?_, fun hc => rfl⟩
          intro j hj
          have hj0 : j = 0 ∨ j = 1 ∨ j = 2 := by omega
          rcases hj0 with rfl | rfl | rfl
          · exact h0
          · exact h1
          · exact h2

/-- C5: the retry wrapper makes between 1 and 4 calls to the wrapped
operation; the sleeps between calls are the corresponding count of
backoffs from 0.2s, 0.4s, 0.8s (here in milliseconds); every call before
the last ended in a retryable (non-nil) error, and the wrapper returns
exactly the last call's outcome — in particular the store's no-value
signal is returned on its first occurrence without any retry, an
operation failing on the first call with the no-value signal yields one
single call and no sleeps, persistent connectivity errors exhaust exactly
4 attempts and the full 0.2/0.4/0.8 backoff schedule, and the wrapper
succeeds exactly when some attempt it made succeeds. -/
theorem c5_retry_wrapper_policy (o : Nat → OpResult) :
    1 ≤ retryCalls o ∧ retryCalls o ≤ 4 ∧
      retryDelays o = [200, 400, 800].take (retryCalls o - 1) ∧
      (∀ j, j < retryCalls o - 1 → o j = .connErr) ∧
      retryResult o = o (retryCalls o - 1) ∧
      (o 0 = .nilErr → executeWithRetry o = (.nilErr, 1, [])) ∧
      ((∀ j, j < 4 → o j = .connErr) →
        executeWithRetry o = (.connErr, 4, [200, 400, 800])) ∧
      (retryResult o = .ok ↔ ∃ j, j < retryCalls o ∧ o j = .ok) := by
  obtain ⟨n, hE, hn1, hn4, hD, hC⟩ := ew_char o
  have hcalls : retryCalls o = n := by simp [retryCalls, hE]
  have hres : retryResult o = o (n - 1) := by simp [retryResult, hE]
  have hdel : retryDelays o = [200, 400, 800].take (n - 1) := by
    simp [retryDelays, hE]
  refine ⟨by omega, by omega, by rw [hdel, hcalls], ?_, ?_, ?_, ?_, ?_⟩
  · intro j hj
    exact hD j (by omega)
  · rw [hres, hcalls]
  · intro h0
    have hn : n = 1 := by
      by_contra hne
      have h00 : o 0 = .connErr := hD 0 (by omega)
      rw [h0] at h00
      exact absurd h00 (by simp)
    subst hn
    rw [hE]
    simp [h0]
  · intro hall
    have hc4 : n = 4 := hC (by rw [hall (n - 1) (by omega)])
    subst hc4
    rw [hE]
    simp [hall 3 (by omega)]
  · constructor
    · intro hok
      exact ⟨n - 1, by rw [hcalls]; omega, by rw [← hres, hok]⟩
    · rintro ⟨j, hj, hok⟩
      rw [hcalls] at hj
      have hjn : j = n - 1 := by
        by_contra hne
        have hcj := hD j (by omega)
        rw [hok] at hcj
        exact absurd hcj (by simp)
      subst hjn
      rw [hres, hok]

theorem c5_retry_wrapper_policy_witness :
    executeWithRetry (fun _ => OpResult.connErr) =
      (.connErr, 4, [200, 400, 800]) :=
  (c5_retry_wrapper_policy (fun _ => OpResult.connErr)).2.2.2.2.2.2.1
    (fun _ _ => rfl)

/-!
## Helper lemmas about the acquisition scan
-/

theorem scan_some (st : Store) (bt : String) (errs : String → Bool) :
    ∀ (order : List String) (w bid : String),
    (acquireScan st bt errs order).1 = some (w, bid) →
    w ∈ order ∧ errs w = false ∧ ∃ tl, st.free w bt = bid :: tl ∧
      (acquireScan st bt errs order).2 = addBusy (setFree st w bt tl) w bt bid := by
  intro order
  induction order with
  | nil => intro w bid h; simp [acquireScan] at h
  | cons w2 rest ih =>
    intro w bid h
    by_cases he : errs w2 = true
    · rw [acquireScan] at h
      simp only [he, if_true] at h
      obtain ⟨hmem, herr, tl, hfree, hstate⟩ := ih w bid h
      refine ⟨List.mem_cons_of_mem _ hmem, herr, tl, hfree, ?_⟩
      rw [acquireScan]
      simp only [he, if_true]
      exact hstate
    · cases hf : st.free w2 bt with
      | nil =>
        rw [acquireScan] at h
        simp only [he, Bool.false_eq_true, if_false, hf] at h
        obtain ⟨hmem, herr, tl, hfree, hstate⟩ := ih w bid h
        refine ⟨List.mem_cons_of_mem _ hmem, herr, tl, hfree, ?_⟩
        rw [acquireScan]
        simpa [he, hf] using hstate
      | cons bid2 tl2 =>
        rw [acquireScan] at h
        simp only [he, Bool.false_eq_true, if_false, hf, Option.some.injEq,
          Prod.mk.injEq] at h
        obtain ⟨rfl, rfl⟩ := h
        refine ⟨List.mem_cons_self _ _, by simpa using he, tl2, hf, ?_⟩
        rw [acquireScan]
        simp [he, hf]

theorem scan_none_state (st : Store) (bt : String) (errs : String → Bool) :
    ∀ order, (acquireScan st bt errs order).1 = none →
    (acquireScan st bt errs order).2 = st := by
  intro order
  induction order with
  | nil => intro _; rfl
  | cons w2 rest ih =>
    intro h
    by_cases he : errs w2 = true
    · rw [acquireScan] at h ⊢
      simp only [he, if_true] at h ⊢
      exact ih h
    · cases hf : st.free w2 bt with
      | nil =>
        rw [acquireScan] at h ⊢
        simp only [he, Bool.false_eq_true, if_false, hf] at h ⊢
        exact ih h
      | cons bid2 tl2 =>
        rw [acquireScan] at h
        simp [he, hf] at h

theorem scan_none_iff (st : Store) (bt : String) (errs : String → Bool) :
    ∀ order, (acquireScan st bt errs order).1 = none ↔
      ∀ w ∈ order, errs w = true ∨ st.free w bt = [] := by
  intro order
  induction order with
  | nil => simp [acquireScan]
  | cons w2 rest ih =>
    by_cases he : errs w2 = true
    · rw [acquireScan]
      simp only [he, if_true]
      rw [ih]
      constructor
      · intro hall w hw
        rcases List.mem_cons.mp hw with rfl | hw2
        · exact .inl he
        · exact hall w hw2
      · intro hall w hw
        exact hall w (List.mem_cons_of_mem _ hw)
    · cases hf : st.free w2 bt with
      | nil =>
        rw [acquireScan]
        simp only [he, Bool.false_eq_true, if_false, hf]
        rw [ih]
        constructor
        · intro hall w hw
          rcases List.mem_cons.mp hw with rfl | hw2
          · exact .inr hf
          · exact hall w hw2
        · intro hall w hw
          exact hall w (List.mem_cons_of_mem _ hw)
      | cons bid2 tl2 =>
        rw [acquireScan]
        simp only [he, Bool.false_eq_true, if_false, hf]
        constructor
        · intro h
          exact absurd h (by simp)
        · intro hall
          rcases hall w2 (List.mem_cons_self _ _) with h | h
          · exact absurd h he
          · rw [h] at hf
            exact absurd hf (by simp)

theorem scan_free_subset (st : Store) (bt : String) (errs : String → Bool)
    (order : List String) (w2 bt2 x : String)
    (hx : x ∈ (acquireScan st bt errs order).2.free w2 bt2) :
    x ∈ st.free w2 bt2 := by
  cases hres : (acquireScan st bt errs order).1 with
  | none =>
    rw [scan_none_state st bt errs order hres] at hx
    exact hx
  | some p =>
    obtain ⟨w, bid⟩ := p
    obtain ⟨_, _, tl, hfree, hstate⟩ := scan_some st bt errs order w bid hres
    rw [hstate] at hx
    simp only [addBusy, setFree] at hx
    by_cases hc : w2 = w ∧ bt2 = bt
    · rw [if_pos hc] at hx
      obtain ⟨rfl, rfl⟩ := hc
      rw [hfree]
      exact List.mem_cons_of_mem _ hx
    · rwa [if_neg hc] at hx

theorem scan_inv (st : Store) (bt : String) (errs : String → Bool)
    (order : List String) (hInv : FreeInv st bt) :
    FreeInv (acquireScan st bt errs order).2 bt := by
  constructor
  · intro w2
    cases hres : (acquireScan st bt errs order).1 with
    | none =>
      rw [scan_none_state st bt errs order hres]
      exact hInv.1 w2
    | some p =>
      obtain ⟨w, bid⟩ := p
      obtain ⟨_, _, tl, hfree, hstate⟩ := scan_some st bt errs order w bid hres
      rw [hstate]
      simp only [addBusy, setFree]
      by_cases hc : w2 = w
      · have := hInv.1 w
        rw [hfree] at this
        simpa [hc] using this.of_cons
      · simpa [hc] using hInv.1 w2
  · intro w1 w2 x hx1 hx2
    exact hInv.2 w1 w2 x (scan_free_subset st bt errs order w1 bt x hx1)
      (scan_free_subset st bt errs order w2 bt x hx2)

theorem scan_bid_gone (st : Store) (bt : String) (errs : String → Bool)
    (order : List String) (w bid : String) (hInv : FreeInv st bt)
    (hres : (acquireScan st bt errs order).1 = some (w, bid)) :
    ∀ w2, bid ∉ (acquireScan st bt errs order).2.free w2 bt := by
  obtain ⟨_, _, tl, hfree, hstate⟩ := scan_some st bt errs order w bid hres
  intro w2 hx
  rw [hstate] at hx
  simp only [addBusy, setFree] at hx
  by_cases hc : w2 = w
  · rw [if_pos (by simp [hc])] at hx
    have := hInv.1 w
    rw [hfree] at this
    exact (List.nodup_cons.mp this).1 hx
  · rw [if_neg (by simp [hc])] at hx
    have hbid : bid ∈ st.free w bt := by
      rw [hfree]; exact List.mem_cons_self _ _
    exact hc (hInv.2 w2 w bid hx hbid)

theorem luaAcquire_some (st : Store) (bt : String) (order : List String)
    (w bid : String) (h : (luaAcquire st bt order).1 = some (w, bid)) :
    w ∈ order ∧ ∃ tl, st.free w bt = bid :: tl ∧
      (luaAcquire st bt order).2 = addBusy (setFree st w bt tl) w bt bid := by
  obtain ⟨hmem, _, tl, hfree, hstate⟩ :=
    scan_some st bt (fun _ => false) order w bid h
  exact ⟨hmem, tl, hfree, hstate⟩

theorem luaAcquire_none_state (st : Store) (bt : String)
    (order : List String) (h : (luaAcquire st bt order).1 = none) :
    (luaAcquire st bt order).2 = st :=
  scan_none_state st bt (fun _ => false) order h

theorem luaAcquire_none_iff (st : Store) (bt : String)
    (order : List String) :
    (luaAcquire st bt order).1 = none ↔ ∀ w ∈ order, st.free w bt = [] := by
  rw [show (luaAcquire st bt order).1 =
      (acquireScan st bt (fun _ => false) order).1 from rfl,
    scan_none_iff st bt (fun _ => false) order]
  simp

theorem luaAcquire_free_subset (st : Store) (bt : String)
    (order : List String) (w2 bt2 x : String)
    (hx : x ∈ (luaAcquire st bt order).2.free w2 bt2) :
    x ∈ st.free w2 bt2 :=
  scan_free_subset st bt (fun _ => false) order w2 bt2 x hx

theorem luaAcquire_inv (st : Store) (bt : String) (order : List String)
    (hInv : FreeInv st bt) : FreeInv (luaAcquire st bt order).2 bt :=
  scan_inv st bt (fun _ => false) order hInv

theorem luaAcquire_bid_gone (st : Store) (bt : String)
    (order : List String) (w bid : String) (hInv : FreeInv st bt)
    (h : (luaAcquire st bt order).1 = some (w, bid)) :
    ∀ w2, bid ∉ (luaAcquire st bt order).2.free w2 bt :=
  scan_bid_gone st bt (fun _ => false) order w bid hInv h

theorem seq_length (bt : String) :
    ∀ (orders : List (List String)) (st : Store),
    (luaAcquireSeq st bt orders).1.length = orders.length := by
  intro orders
  induction orders with
  | nil => intro st; rfl
  | cons order rest ih =>
    intro st
    rw [luaAcquireSeq]
    simp only [List.length_cons]
    rw [ih]

theorem seq_mem (bt : String) :
    ∀ (orders : List (List String)) (st : Store) (w bid : String),
    (w, bid) ∈ (luaAcquireSeq st bt orders).1.filterMap id →
    bid ∈ st.free w bt := by
  intro orders
  induction orders with
  | nil => intro st w bid h; simp [luaAcquireSeq] at h
  | cons order rest ih =>
    intro st w bid h
    rw [luaAcquireSeq] at h
    simp only at h
    cases hres : (luaAcquire st bt order).1 with
    | none =>
      rw [hres] at h
      simp only [List.filterMap_cons, id] at h
      have hst := luaAcquire_none_state st bt order hres
      rw [hst] at h
      exact ih st w bid h
    | some p =>
      obtain ⟨w3, bid3⟩ := p
      rw [hres] at h
      simp only [List.filterMap_cons, id, List.mem_cons] at h
      rcases h with h | h
      · rw [Prod.mk.injEq] at h
        obtain ⟨rfl, rfl⟩ := h
        obtain ⟨_, tl, hfree, _⟩ := luaAcquire_some st bt order w bid hres
        rw [hfree]
        exact List.mem_cons_self _ _
      · have := ih (luaAcquire st bt order).2 w bid h
        exact luaAcquire_free_subset st bt order w bt bid this

theorem seq_nodup (bt : String) :
    ∀ (orders : List (List String)) (st : Store), FreeInv st bt →
    (((luaAcquireSeq st bt orders).1.filterMap id).map Prod.snd).Nodup := by
  intro orders
  induction orders with
  | nil => intro st _; simp [luaAcquireSeq]
  | cons order rest ih =>
    intro st hInv
    rw [luaAcquireSeq]
    simp only
    cases hres : (luaAcquire st bt order).1 with
    | none =>
      simp only [List.filterMap_cons, id]
      have hst := luaAcquire_none_state st bt order hres
      rw [hst]
      exact ih st hInv
    | some p =>
      obtain ⟨w, bid⟩ := p
      simp only [List.filterMap_cons, id, List.map_cons, List.nodup_cons]
      constructor
      · intro hmem
        obtain ⟨⟨w2, bid2⟩, hmem2, hsnd⟩ := List.mem_map.mp hmem
        simp only at hsnd
        have hin := seq_mem bt rest (luaAcquire st bt order).2 w2 bid2 hmem2
        rw [hsnd] at hin
        exact luaAcquire_bid_gone st bt order w bid hInv hres w2 hin
      · exact ih (luaAcquire st bt order).2 (luaAcquire_inv st bt order hInv)

theorem sum_succ_helper :
    ∀ (ws : List String) (f g : String → Nat) (w : String), ws.Nodup →
    w ∈ ws → (∀ w2 ∈ ws, w2 ≠ w → g w2 = f w2) → g w + 1 = f w →
    (ws.map g).sum + 1 = (ws.map f).sum := by
  intro ws
  induction ws with
  | nil => intro f g w _ hw; simp at hw
  | cons a rest ih =>
    intro f g w hnd hw hoth hgw
    rcases List.mem_cons.mp hw with rfl | hw2
    · have hrest : rest.map g = rest.map f := by
        apply List.map_congr_left
        intro w2 hw2
        exact hoth w2 (List.mem_cons_of_mem _ hw2)
          (fun he => (List.nodup_cons.mp hnd).1 (he ▸ hw2))
      simp only [List.map_cons, List.sum_cons, hrest]
      omega
    · have hane : a ≠ w := fun he => (List.nodup_cons.mp hnd).1 (he ▸ hw2)
      have ha : g a = f a := hoth a (List.mem_cons_self _ _) hane
      have := ih f g w (List.nodup_cons.mp hnd).2 hw2
        (fun w2 hmem hne => hoth w2 (List.mem_cons_of_mem _ hmem) hne) hgw
      simp only [List.map_cons, List.sum_cons, ha]
      omega

theorem totalFree_dec (st : Store) (bt : String) (ws : List String)
    (w bid : String) (tl : List String) (hnd : ws.Nodup) (hw : w ∈ ws)
    (hfree : st.free w bt = bid :: tl) :
    totalFree (addBusy (setFree st w bt tl) w bt bid) bt ws + 1 =
      totalFree st bt ws := by
  apply sum_succ_helper ws (fun w2 => (st.free w2 bt).length)
    (fun w2 => ((addBusy (setFree st w bt tl) w bt bid).free w2 bt).length)
    w hnd hw
  · intro w2 _ hne
    simp [addBusy, setFree, hne]
  · simp [addBusy, setFree, hfree]

theorem seq_count (bt : String) (ws : List String) (hnd : ws.Nodup) :
    ∀ (orders : List (List String)) (st : Store),
    (∀ o ∈ orders, o.Perm ws) →
    ((luaAcquireSeq st bt orders).1.filterMap id).length =
      min orders.length (totalFree st bt ws) := by
  intro orders
  induction orders with
  | nil => intro st _; simp [luaAcquireSeq]
  | cons order rest ih =>
    intro st hperm
    have hor : order.Perm ws := hperm order (List.mem_cons_self _ _)
    have hrest : ∀ o ∈ rest, o.Perm ws :=
      fun o ho => hperm o (List.mem_cons_of_mem _ ho)
    rw [luaAcquireSeq]
    simp only
    cases hres : (luaAcquire st bt order).1 with
    | none =>
      have hall := (luaAcquire_none_iff st bt order).mp hres
      have htf : totalFree st bt ws = 0 := by
        apply List.sum_eq_zero
        intro x hx
        obtain ⟨w, hwmem, hlen⟩ := List.mem_map.mp hx
        have hwo : w ∈ order := (hor.mem_iff).mpr hwmem
        rw [← hlen, hall w hwo]
        rfl
      have hst := luaAcquire_none_state st bt order hres
      simp only [List.filterMap_cons, id]
      rw [hst, ih st hrest, htf]
      simp
    | some p =>
      obtain ⟨w, bid⟩ := p
      obtain ⟨hwmem, tl, hfree, hstate⟩ := luaAcquire_some st bt order w bid hres
      have hw : w ∈ ws := hor.subset hwmem
      have hdec := totalFree_dec st bt ws w bid tl hnd hw hfree
      simp only [List.filterMap_cons, id, List.length_cons]
      rw [ih (luaAcquire st bt order).2 hrest, hstate]
      omega

def emptyStore : Store :=
  { workers := [], free := fun _ _ => [], busy := fun _ _ => [] }

def noFreeStore : Store :=
  { workers := ["w1"], free := fun _ _ => [], busy := fun _ _ => [] }

theorem sampleStore_inv : FreeInv sampleStore "chrome" := by
  constructor
  · intro w
    simp only [sampleStore]
    split
    · exact List.nodup_singleton _
    · exact List.nodup_nil
  · intro w1 w2 x hx1 hx2
    simp only [sampleStore] at hx1 hx2
    split_ifs at hx1 hx2 with h1 h2
    · rw [h1.1, h2.1]
    all_goals simp at hx1 hx2

/-- C1 counterexample: an excess caller does not receive
`NoBrowserAvailableError`.  The pool holds one free chrome instance; the
first `Client.Acquire` claims it, and the second caller — run against the
resulting store — gets the Redis-Lua error (go-redis surfaces the
script's nil reply as the `redis.Nil` error, so the "No browsers
available" branch never executes), an error distinct from
`noBrowsersAvailable`. -/
theorem c1_counterexample :
    (clientAcquireCore emptyClient
        (clientAcquireCore emptyClient sampleStore ["w1"] false "chrome"
          false false "").2.2 ["w1"] false "chrome" false false "").1 =
      .error .redisLua ∧
      BrowserErr.redisLua ≠ BrowserErr.noBrowsersAvailable :=
  ⟨rfl, by simp⟩

/-- C1 amended: the Lua script's claim step is a single store transition
that pops the instance ID off the worker's free set and adds it to that
worker's busy set together, touching no other set — pop and add are one
indivisible operation by construction, so any concurrent execution of
callers equals their sequential composition in some order; across any
such sequence of Acquire calls for one browser type (each scanning its
own shuffle of the worker set, the pool's free sets duplicate-free and
pairwise disjoint) no two successful calls return the same browser
instance ID, every caller gets exactly one result, and the number of
successes is the number of callers capped by the number of distinct free
instances available at call time.  Every excess caller fails, but with
the Redis-Lua error ("Redis Lua Error: redis: nil" — go-redis maps the
script's nil reply to the `redis.Nil` error), not with
`NoBrowserAvailableError`, whose branch is dead code. -/
theorem c1_acquire_exclusive_amended (st : Store) (bt : String)
    (ws : List String) (orders : List (List String)) (hnd : ws.Nodup)
    (hperm : ∀ o ∈ orders, o.Perm ws) (hInv : FreeInv st bt) :
    (∀ order w bid, (luaAcquire st bt order).1 = some (w, bid) →
      ∃ tl, st.free w bt = bid :: tl ∧
        (luaAcquire st bt order).2.free w bt = tl ∧
        bid ∈ (luaAcquire st bt order).2.busy w bt ∧
        (∀ w2 bt2, ¬(w2 = w ∧ bt2 = bt) →
          (luaAcquire st bt order).2.free w2 bt2 = st.free w2 bt2 ∧
            (luaAcquire st bt order).2.busy w2 bt2 = st.busy w2 bt2)) ∧
      (((luaAcquireSeq st bt orders).1.filterMap id).map Prod.snd).Nodup ∧
      (luaAcquireSeq st bt orders).1.length = orders.length ∧
      ((luaAcquireSeq st bt orders).1.filterMap id).length =
        min orders.length (totalFree st bt ws) ∧
      (∀ (c : ClientState) (order2 : List String) (video rec2 : Bool)
        (profileID : String), (luaAcquire st bt order2).1 = none →
        (clientAcquireCore c st order2 false bt video rec2 profileID).1 =
          .error .redisLua) := by
  refine ⟨?_, seq_nodup bt orders st hInv, seq_length bt orders st,
    seq_count bt ws hnd orders st hperm, ?_⟩
  · intro order w bid h
    obtain ⟨_, tl, hfree, hstate⟩ := luaAcquire_some st bt order w bid h
    refine ⟨tl, hfree, ?_, ?_, ?_⟩
    · rw [hstate]
      simp [addBusy, setFree]
    · rw [hstate]
      by_cases hb : bid ∈ st.busy w bt
      · simp [addBusy, setFree, hb]
      · simp [addBusy, setFree, hb]
    · intro w2 bt2 hne
      rw [hstate]
      constructor
      · simp only [addBusy, setFree]
        rw [if_neg hne]
      · simp only [addBusy, setFree]
        rw [if_neg hne]
  · intro c2 order2 video rec2 profileID hnone
    unfold clientAcquireCore
    rw [if_neg (by simp)]
    rcases hres : luaAcquire st bt order2 with ⟨o, st2⟩
    rw [hres] at hnone
    cases o with
    | none => rfl
    | some pr => simp at hnone

theorem c1_acquire_exclusive_amended_witness :
    ((luaAcquireSeq sampleStore "chrome" [["w1"], ["w1"]]).1.filterMap
        id).length = 1 ∧
      (clientAcquireCore emptyClient sampleStore [] false "chrome" false
          false "").1 = .error .redisLua := by
  have h := c1_acquire_exclusive_amended sampleStore "chrome" ["w1"]
    [["w1"], ["w1"]] (by simp)
    (by
      intro o ho
      simp only [List.mem_cons] at ho
      rcases ho with rfl | rfl | ho3
      · exact List.Perm.refl _
      · exact List.Perm.refl _
      · simp at ho3)
    sampleStore_inv
  constructor
  · rw [h.2.2.2.1]
    rfl
  · exact h.2.2.2.2 emptyClient [] false false "" rfl

/-- C2 counterexample: the Lua-script-based `Client.Acquire` run against
the empty worker-pool set does not fail with a distinct no-workers error:
go-redis surfaces the script's nil reply as the `redis.Nil` error, so an
empty pool yields the Redis-Lua error — the very failure a non-empty but
exhausted pool yields — and the error type has no no-workers constructor
at all, so the claim as stated is false for this implementation. -/
theorem c2_counterexample :
    (clientAcquireCore emptyClient emptyStore [] false "chrome" false false
        "").1 = .error .redisLua ∧
      (clientAcquireCore emptyClient noFreeStore ["w1"] false "chrome" false
          false "").1 = .error .redisLua :=
  ⟨rfl, rfl⟩

/-- C2 amended: `BrowserClient.Acquire` against an empty or unreadable
worker-pool set fails with the no-workers error — distinct from its
no-available-browsers error — immediately and without touching the store
(unchanged state and store, empty send trace); the Lua-script-based
`Client.Acquire` does not distinguish at all: an empty pool (the script's
nil reply arriving as the `redis.Nil` error) and an unreadable pool both
surface the same Redis-Lua error. -/
theorem c2_no_workers_amended (bc : BCState) (st : Store)
    (smembersErr : Bool) (order : List String) (bt : String) (rec1 : Bool)
    (errs : String → Bool) (recEnv : BCSendEnv) (c : ClientState)
    (orderL : List String) (video rec2 : Bool) (profileID : String)
    (h : smembersErr = true ∨ st.workers = []) :
    bcAcquire bc st smembersErr order bt rec1 errs recEnv =
        (some .noWorkersFound, bc, st, []) ∧
      BCError.noWorkersFound ≠ BCError.noAvailableBrowsers ∧
      (st.workers = [] → orderL.Perm st.workers →
        (clientAcquireCore c st orderL false bt video rec2 profileID).1 =
          .error .redisLua) ∧
      (clientAcquireCore c st orderL true bt video rec2 profileID).1 =
        .error .redisLua := by
  refine ⟨?_, by simp, ?_, ?_⟩
  · rw [bcAcquire, if_pos h]
  · intro hw hpermL
    have hnil : orderL = [] := List.Perm.eq_nil (hw ▸ hpermL)
    subst hnil
    rfl
  · rfl

theorem c2_no_workers_amended_witness :
    bcAcquire emptyBC emptyStore false [] "chrome" false (fun _ => false)
        sampleBCSendEnv = (some .noWorkersFound, emptyBC, emptyStore, []) ∧
      (clientAcquireCore emptyClient emptyStore [] false "chrome" false
          false "").1 = .error .redisLua := by
  have h := c2_no_workers_amended emptyBC emptyStore false [] "chrome"
    false (fun _ => false) sampleBCSendEnv emptyClient [] false false ""
    (.inr rfl)
  exact ⟨h.1, h.2.2.1 rfl (List.Perm.refl _)⟩

end IsoAutomate
